import Mathlib

/-!
Verification of the rustshell translation pipeline (natural-language
detection, prompt building, provider dispatch with LRU response caching,
and the safety/confirmation gate) against its design specification.

The Rust sources are shallowly embedded: strings are Lean strings
(lowercasing is modelled per-character), machine integers are naturals,
f32 temperatures are rationals, and fallible operations return Except.
-/

namespace RustShell

/-! ## String helpers (models of Rust str operations) -/

/-- Model of Rust str::to_lowercase, applied per character. -/
def lowerStr (s : String) : String := ⟨s.data.map Char.toLower⟩

/-- Model of Rust str::contains(pat) on character lists: some suffix of the
list starts with the pattern. -/
def listContainsSub : List Char → List Char → Bool
  | s, pat =>
    if pat.isPrefixOf s then true
    else
      match s with
      | [] => false
      | _ :: t => listContainsSub t pat

/-- Model of Rust str::contains for strings. -/
def strContains (s pat : String) : Bool := listContainsSub s.data pat.data

/-- Model of Rust str::starts_with for strings. -/
def strStarts (s pat : String) : Bool := pat.data.isPrefixOf s.data

/-- The proposition that pat occurs contiguously inside s. -/
def SubstringOf (pat s : String) : Prop :=
  ∃ l r : List Char, s.data = l ++ pat.data ++ r

/-- Model of Rust str::trim on character lists (strip whitespace both ends). -/
def listTrim (s : List Char) : List Char :=
  ((s.dropWhile Char.isWhitespace).reverse.dropWhile Char.isWhitespace).reverse

/-- Model of Rust str::trim for strings. -/
def strTrim (s : String) : String := ⟨listTrim s.data⟩

/-- Number of whitespace-separated tokens, as counted by Rust
split_whitespace().count(); the Bool flag tracks being inside a token. -/
def countTokensAux : List Char → Bool → Nat
  | [], _ => 0
  | c :: t, inTok =>
    if c.isWhitespace then countTokensAux t false
    else (if inTok then 0 else 1) + countTokensAux t true

/-- Number of whitespace-separated tokens of a string. -/
def countTokens (s : String) : Nat := countTokensAux s.data false

theorem isPrefixOf_iff_exists {p s : List Char} :
    p.isPrefixOf s = true ↔ ∃ r, s = p ++ r := by
  induction p generalizing s with
  | nil => simp [List.isPrefixOf]
  | cons a ps ih =>
    cases s with
    | nil => simp [List.isPrefixOf]
    | cons b ss =>
      simp only [List.isPrefixOf, Bool.and_eq_true, beq_iff_eq, ih]
      constructor
      · rintro ⟨rfl, r, rfl⟩
        exact ⟨r, rfl⟩
      · rintro ⟨r, h⟩
        injection h with h1 h2
        exact ⟨h1.symm, r, h2⟩

theorem listContainsSub_iff {s pat : List Char} :
    listContainsSub s pat = true ↔ ∃ l r, s = l ++ pat ++ r := by
  induction s with
  | nil =>
    rw [listContainsSub]
    constructor
    · intro h
      split at h
      · rename_i hp
        obtain ⟨r, hr⟩ := isPrefixOf_iff_exists.mp hp
        exact ⟨[], r, by simpa using hr⟩
      · simp at h
    · rintro ⟨l, r, h⟩
      have hpat : pat = [] := (List.append_eq_nil.mp (List.append_eq_nil.mp h.symm).1).2
      have hpre : pat.isPrefixOf ([] : List Char) = true := by
        rw [isPrefixOf_iff_exists]
        exact ⟨[], by simp [hpat]⟩
      simp [hpre]
  | cons a t ih =>
    rw [listContainsSub]
    constructor
    · intro h
      split at h
      · rename_i hp
        obtain ⟨r, hr⟩ := isPrefixOf_iff_exists.mp hp
        exact ⟨[], r, by simpa using hr⟩
      · obtain ⟨l, r, hr⟩ := ih.mp h
        exact ⟨a :: l, r, by simp [hr]⟩
    · rintro ⟨l, r, h⟩
      split
      · rfl
      · rename_i hp
        cases l with
        | nil =>
          exact absurd (isPrefixOf_iff_exists.mpr ⟨r, by simpa using h⟩) (by simp [hp])
        | cons b bs =>
          injection h with h1 h2
          exact ih.mpr ⟨bs, r, h2⟩

theorem strContains_iff {s pat : String} :
    strContains s pat = true ↔ SubstringOf pat s :=
  listContainsSub_iff

theorem strStarts_iff {s pat : String} :
    strStarts s pat = true ↔ ∃ r, s.data = pat.data ++ r :=
  isPrefixOf_iff_exists

/-- Containment of the middle part of a three-way concatenation. -/
theorem listContainsSub_of_middle (l pat r : List Char) :
    listContainsSub (l ++ pat ++ r) pat = true :=
  listContainsSub_iff.mpr ⟨l, r, rfl⟩

/-! ## Configuration data model (src/config/mod.rs) -/

/-- Embedding of LLMSettings. Temperature is modelled as a rational. -/
structure LLMSettings where
  provider : String
  model : String
  api_key_env : Option String
  endpoint : Option String
  timeout_seconds : Nat
  max_tokens : Nat
  temperature : ℚ
  enable_cache : Bool
  deriving DecidableEq, Repr

/-- Embedding of SafetySettings. -/
structure SafetySettings where
  require_confirmation : List String
  dangerous_patterns : List String
  enable_dry_run : Bool
  block_destructive : Bool
  deriving DecidableEq, Repr

/-- Embedding of FeatureSettings. -/
structure FeatureSettings where
  enable_llm : Bool
  fallback_to_traditional : Bool
  offline_mode : Bool
  enable_history : Bool
  deriving DecidableEq, Repr

/-- Embedding of UISettings. -/
structure UISettings where
  show_hints : Bool
  colored_output : Bool
  verbose_mode : Bool
  confirm_destructive : Bool
  deriving DecidableEq, Repr

/-- Embedding of RustShellConfig. -/
structure RustShellConfig where
  llm : LLMSettings
  safety : SafetySettings
  features : FeatureSettings
  ui : UISettings
  deriving DecidableEq, Repr

/-- Embedding of the Default impl for RustShellConfig. -/
def defaultConfig : RustShellConfig where
  llm :=
    { provider := "openai"
      model := "gpt-3.5-turbo"
      api_key_env := some "OPENAI_API_KEY"
      endpoint := none
      timeout_seconds := 30
      max_tokens := 150
      temperature := 1 / 10
      enable_cache := true }
  safety :=
    { require_confirmation := ["rm", "delete", "format", "sudo", "rmdir"]
      dangerous_patterns := ["rm -rf /", "format c:", "sudo rm", "del /s"]
      enable_dry_run := true
      block_destructive := false }
  features :=
    { enable_llm := true
      fallback_to_traditional := true
      offline_mode := false
      enable_history := true }
  ui :=
    { show_hints := true
      colored_output := true
      verbose_mode := false
      confirm_destructive := true }

/-- Embedding of RustShellConfig::is_dangerous_command: the for loop with
early return over dangerous_patterns is List.any. -/
def is_dangerous_command (cfg : RustShellConfig) (command : String) : Bool :=
  let command_lower := lowerStr command
  cfg.safety.dangerous_patterns.any fun pattern =>
    strContains command_lower (lowerStr pattern)

/-- Embedding of RustShellConfig::requires_confirmation. -/
def requires_confirmation (cfg : RustShellConfig) (command : String) : Bool :=
  if !cfg.ui.confirm_destructive then false
  else
    let command_lower := lowerStr command
    cfg.safety.require_confirmation.any fun confirm_cmd =>
      strStarts command_lower (lowerStr confirm_cmd)

/-! ## Prompt builder (src/llm/prompts.rs) -/

/-- Embedding of PromptTemplate; the HashMap os_context is modelled as an
association list with the three inserted keys (only lookup is used). -/
structure PromptTemplate where
  system_prompt : String
  os_context : List (String × String)
  safety_rules : List String
  output_format : String
  deriving DecidableEq, Repr

/-- Embedding of PromptTemplate::default_system_prompt. -/
def default_system_prompt : String :=
  "You are a cross-platform command translator. Your job is to convert natural language requests into appropriate shell commands for the target operating system.\n\nKey responsibilities:\n1. Translate natural language to OS-specific commands\n2. Ensure commands are safe and appropriate\n3. Handle cross-platform differences (Windows vs Unix)\n4. Provide only the command, no explanations\n\nExamples:\n- \"create a directory called test\" → \"mkdir test\" (Unix) or \"mkdir test\" (Windows)\n- \"list files in current directory\" → \"ls -la\" (Unix) or \"dir\" (Windows)\n- \"copy file.txt to backup.txt\" → \"cp file.txt backup.txt\" (Unix) or \"copy file.txt backup.txt\" (Windows)\n- \"delete file.txt\" → \"rm file.txt\" (Unix) or \"del file.txt\" (Windows)\n- \"show current directory\" → \"pwd\" (Unix) or \"cd\" (Windows)\n\nAlways consider the target OS and provide the most appropriate command."

/-- Embedding of PromptTemplate::default_output_format. -/
def default_output_format : String :=
  "Return ONLY the command without any explanations, quotes, or additional text.\nFor compound operations, separate commands with ' && '.\nFor Windows, use PowerShell commands when appropriate.\nFor Unix systems, use standard shell commands."

/-- Embedding of PromptTemplate::new. -/
def promptTemplateNew : PromptTemplate where
  system_prompt := default_system_prompt
  os_context :=
    [("windows", "Windows PowerShell/Command Prompt"),
     ("linux", "Linux bash/sh shell"),
     ("macos", "macOS bash/zsh shell")]
  safety_rules :=
    ["Never suggest commands that could harm the system",
     "Always use safe file operations",
     "Warn about destructive operations",
     "Prefer native cross-platform commands when possible",
     "Only return the command, no explanations"]
  output_format := default_output_format

/-- The OS label used by build_prompt: map lookup with fallback. -/
def osLabel (tmpl : PromptTemplate) (os : String) : String :=
  (tmpl.os_context.lookup os).getD "Unknown OS"

/-- Embedding of PromptTemplate::build_prompt (the format string of the
source, chunk by chunk). -/
def build_prompt (tmpl : PromptTemplate) (user_input os : String) : String :=
  let os_info := osLabel tmpl os
  tmpl.system_prompt ++ "\n\nTarget OS: " ++ os_info ++ "\nUser Request: \"" ++
    user_input ++ "\"\n\nSafety Rules:\n" ++
    String.intercalate "\n- " tmpl.safety_rules ++ "\n\nOutput Format:\n" ++
    tmpl.output_format ++ "\n\nProvide only the command:"

/-! ## Heuristic classifier (src/llm/prompts.rs) -/

/-- The fixed keyword list of is_natural_language. -/
def natural_language_indicators : List String :=
  ["create", "make", "delete", "remove", "copy", "move", "show", "display",
   "list", "find", "search", "navigate", "go to", "change to", "switch to",
   "how to", "can you", "please", "i want", "i need", "help me"]

/-- The padded function-word substrings checked by the second tier. -/
def sentencePatternWords : List String :=
  [" a ", " an ", " the ", " to ", " and ", " or "]

/-- Embedding of is_natural_language: keyword tier, then, for inputs of more
than 3 whitespace-separated tokens, the padded function-word tier. -/
def is_natural_language (input : String) : Bool :=
  let input_lower := lowerStr input
  if natural_language_indicators.any (fun indicator => strContains input_lower indicator) then
    true
  else if countTokens input > 3 then
    strContains input_lower " a " || strContains input_lower " an " ||
    strContains input_lower " the " || strContains input_lower " to " ||
    strContains input_lower " and " || strContains input_lower " or "
  else false

theorem sentence_pattern_iff (s : String) :
    (strContains s " a " || strContains s " an " ||
     strContains s " the " || strContains s " to " ||
     strContains s " and " || strContains s " or ") = true ↔
    ∃ w ∈ sentencePatternWords, SubstringOf w s := by
  simp only [sentencePatternWords, Bool.or_eq_true, strContains_iff,
    List.exists_mem_cons_iff, List.not_mem_nil, false_and, exists_false, or_false]
  tauto

/-! ## LLM data model (src/llm/mod.rs) -/

/-- Embedding of LLMRequest; the f32 temperature is a rational. -/
structure LLMRequest where
  prompt : String
  max_tokens : Nat
  temperature : ℚ
  context : Option String
  deriving DecidableEq, Repr

/-- Embedding of Usage. -/
structure Usage where
  prompt_tokens : Nat
  completion_tokens : Nat
  total_tokens : Nat
  deriving DecidableEq, Repr

/-- Embedding of LLMResponse. -/
structure LLMResponse where
  content : String
  finish_reason : String
  usage : Option Usage
  deriving DecidableEq, Repr

/-- Embedding of the LLMProvider identity enum. -/
inductive LLMProvider where
  | OpenAI
  | Anthropic
  | Local (endpoint : String)
  | Custom (endpoint : String)
  deriving DecidableEq, Repr

/-- Embedding of LLMConfig (the timeout Duration is kept in seconds). -/
structure LLMConfig where
  provider : LLMProvider
  model : String
  api_key : Option String
  endpoint : Option String
  timeout_seconds : Nat
  max_tokens : Nat
  temperature : ℚ
  deriving DecidableEq, Repr

/-! ## Cache fingerprint (src/llm/client.rs, calculate_cache_key) -/

/-- Model of the Rust cast (x as u32) from f32 (here from a rational):
truncation toward zero, saturating at the u32 bounds. -/
def f32ToU32 (x : ℚ) : Nat := if x ≤ 0 then 0 else min (⌊x⌋).toNat (2 ^ 32 - 1)

/-- The exact component stream fed to the DefaultHasher by
calculate_cache_key; the resulting 64-bit hash is modelled by this
(collision-free) input stream. The context component is written to the
hasher only when present, which the Option field models. -/
structure CacheKey where
  prompt : String
  max_tokens : Nat
  temperature_scaled : Nat
  context : Option String
  model : String
  deriving DecidableEq, Repr

/-- Embedding of LLMClient::calculate_cache_key: the temperature is scaled by
100 and cast to u32 (truncation), and the configured model string is mixed
into the key. -/
def calculate_cache_key (model : String) (request : LLMRequest) : CacheKey :=
  { prompt := request.prompt
    max_tokens := request.max_tokens
    temperature_scaled := f32ToU32 (request.temperature * 100)
    context := request.context
    model := model }

/-- The temperature component as the specification words it: the value
round(temperature*100), stated for comparison with the truncation the
source performs. -/
def specRoundTemp (t : ℚ) : ℤ := round (t * 100)

/-! ## LRU response cache (the lru crate LruCache as used by client.rs) -/

/-- Model of the lru crate LruCache: association list ordered
most-recently-used first, bounded by capacity. -/
structure LruState (α β : Type) where
  capacity : Nat
  entries : List (α × β)
  deriving Repr

/-- The empty cache of a given capacity. -/
def emptyLru (α β : Type) (capacity : Nat) : LruState α β := ⟨capacity, []⟩

/-- Model of LruCache::get: a hit promotes the entry to most-recently-used
and returns its value; a miss leaves the cache unchanged. -/
def lruGet {α β : Type} [BEq α] (s : LruState α β) (k : α) :
    Option β × LruState α β :=
  match s.entries.find? (fun e => e.1 == k) with
  | none => (none, s)
  | some e =>
    (some e.2, ⟨s.capacity, e :: s.entries.filter (fun x => !(x.1 == k))⟩)

/-- Model of LruCache::put: insert (or update and promote) the key at the
front, evicting the least-recently-used entry when over capacity. -/
def lruPut {α β : Type} [BEq α] (s : LruState α β) (k : α) (v : β) :
    LruState α β :=
  ⟨s.capacity, ((k, v) :: s.entries.filter (fun x => !(x.1 == k))).take s.capacity⟩

/-! ## LLM client (src/llm/client.rs) -/

/-- The constructed provider adapter of LLMProviderEnum (api key and model
are the adapter state; the reqwest client and endpoint carry no logic
relevant here). -/
inductive ProviderAdapter where
  | OpenAI (api_key model : String)
  | Anthropic (api_key model : String)
  deriving DecidableEq, Repr

/-- Embedding of LLMClient. -/
structure LLMClient where
  provider : ProviderAdapter
  cache : LruState CacheKey LLMResponse
  config : LLMConfig

/-- Embedding of LLMClient::new: resolves the API key from the config value
or the environment, fails when no key is found and for the Local and Custom
provider identities, and creates a fresh 100-entry cache. env models
std::env::var. -/
def llmClientNew (config : LLMConfig) (env : String → Option String) :
    Except String LLMClient :=
  match config.provider with
  | .OpenAI =>
    match config.api_key.orElse (fun _ => env "OPENAI_API_KEY") with
    | none => .error "OpenAI API key not found"
    | some api_key =>
      .ok ⟨.OpenAI api_key config.model, emptyLru CacheKey LLMResponse 100, config⟩
  | .Anthropic =>
    match config.api_key.orElse (fun _ => env "ANTHROPIC_API_KEY") with
    | none => .error "Anthropic API key not found"
    | some api_key =>
      .ok ⟨.Anthropic api_key config.model, emptyLru CacheKey LLMResponse 100, config⟩
  | .Local endpoint => .error ("Local provider not yet implemented: " ++ endpoint)
  | .Custom endpoint => .error ("Custom provider not yet implemented: " ++ endpoint)

/-- Result of one LLMClient::generate call: the returned value, the cache
state afterwards, and whether the provider (the network) was invoked. -/
structure GenOutcome where
  result : Except String LLMResponse
  cache : LruState CacheKey LLMResponse
  providerCalled : Bool

/-- Embedding of LLMClient::generate: cache lookup first (a hit returns the
cached clone with no provider call), otherwise dispatch to the provider and
cache a successful response. providerGen abstracts the network round trip of
the concrete adapter. -/
def llmGenerate (model : String)
    (providerGen : LLMRequest → Except String LLMResponse)
    (cache : LruState CacheKey LLMResponse) (request : LLMRequest) : GenOutcome :=
  let cache_key := calculate_cache_key model request
  match lruGet cache cache_key with
  | (some cached_response, cache1) => ⟨.ok cached_response, cache1, false⟩
  | (none, cache1) =>
    match providerGen request with
    | .error e => ⟨.error e, cache1, true⟩
    | .ok response => ⟨.ok response, lruPut cache1 cache_key response, true⟩

/-! ## Provider response parsing (src/llm/providers) -/

/-- Embedding of the OpenAI wire message. -/
structure OpenAIMessage where
  role : String
  content : String
  deriving DecidableEq, Repr

/-- Embedding of one OpenAI choice. -/
structure OpenAIChoice where
  message : OpenAIMessage
  finish_reason : Option String
  deriving DecidableEq, Repr

/-- Embedding of the OpenAI usage block. -/
structure OpenAIUsage where
  prompt_tokens : Nat
  completion_tokens : Nat
  total_tokens : Nat
  deriving DecidableEq, Repr

/-- Embedding of the decoded OpenAI response body. -/
structure OpenAIResponseBody where
  choices : List OpenAIChoice
  usage : Option OpenAIUsage
  deriving DecidableEq, Repr

/-- Embedding of the response-handling tail of OpenAIProvider::generate
after a 2xx status and JSON decoding: the first choice is required, an empty
choices list is an explicit error. -/
def openAIParseResponse (r : OpenAIResponseBody) : Except String LLMResponse :=
  match r.choices with
  | [] => .error "No choices returned from OpenAI API"
  | choice :: _ =>
    .ok { content := strTrim choice.message.content
          finish_reason := choice.finish_reason.getD ""
          usage := r.usage.map fun u =>
            ⟨u.prompt_tokens, u.completion_tokens, u.total_tokens⟩ }

/-- Embedding of one Anthropic content block. -/
structure AnthropicContent where
  content_type : String
  text : String
  deriving DecidableEq, Repr

/-- Embedding of the Anthropic usage block. -/
structure AnthropicUsage where
  input_tokens : Nat
  output_tokens : Nat
  deriving DecidableEq, Repr

/-- Embedding of the decoded Anthropic response body. -/
structure AnthropicResponseBody where
  content : List AnthropicContent
  usage : Option AnthropicUsage
  stop_reason : Option String
  deriving DecidableEq, Repr

/-- Embedding of the response-handling tail of AnthropicProvider::generate
after a 2xx status and JSON decoding: all text-typed content entries are
joined with one space. -/
def anthropicParseResponse (r : AnthropicResponseBody) : Except String LLMResponse :=
  let content := String.intercalate " "
    ((r.content.filter (fun c => c.content_type == "text")).map (fun c => c.text))
  .ok { content := strTrim content
        finish_reason := r.stop_reason.getD ""
        usage := r.usage.map fun u =>
          ⟨u.input_tokens, u.output_tokens, u.input_tokens + u.output_tokens⟩ }

/-! ## Config-to-client plumbing (src/config/mod.rs, to_llm_config) -/

/-- Model of str::strip_prefix after a successful starts_with check. -/
def stripStart (s pat : String) : String := ⟨s.data.drop pat.data.length⟩

/-- The provider-id match of to_llm_config. -/
def parseProvider (p : String) : Option LLMProvider :=
  if p = "openai" then some .OpenAI
  else if p = "anthropic" then some .Anthropic
  else if strStarts p "local:" then some (.Local (stripStart p "local:"))
  else if strStarts p "custom:" then some (.Custom (stripStart p "custom:"))
  else none

/-- Embedding of RustShellConfig::to_llm_config: provider-id parsing and the
api_key_env resolution heuristic (a value with an sk- or anthropic- marker is
used literally, otherwise it names an environment variable; absent, the
provider default environment variable is consulted). -/
def toLLMConfig (cfg : RustShellConfig) (env : String → Option String) :
    Except String LLMConfig :=
  match parseProvider cfg.llm.provider with
  | none => .error ("Unknown LLM provider: " ++ cfg.llm.provider)
  | some provider =>
    let api_key : Option String :=
      match cfg.llm.api_key_env with
      | some env_var =>
        if strStarts env_var "sk-" || strStarts env_var "anthropic-" then some env_var
        else env env_var
      | none =>
        match provider with
        | .OpenAI => env "OPENAI_API_KEY"
        | .Anthropic => env "ANTHROPIC_API_KEY"
        | _ => none
    .ok { provider := provider
          model := cfg.llm.model
          api_key := api_key
          endpoint := cfg.llm.endpoint
          timeout_seconds := cfg.llm.timeout_seconds
          max_tokens := cfg.llm.max_tokens
          temperature := cfg.llm.temperature }

/-! ## Translation service (src/main.rs, process_natural_language) -/

/-- Model of str::ends_with for strings. -/
def strEnds (s pat : String) : Bool := pat.data.isSuffixOf s.data

/-- The quote-stripping step of process_natural_language. -/
def stripQuotes (input : String) : String :=
  if (strStarts input "\"" && strEnds input "\"") ||
     (strStarts input "\x27" && strEnds input "\x27") then
    ⟨(input.data.drop 1).dropLast⟩
  else input

/-- Observable outcome of one process_natural_language turn: the returned
translation, the final cache state of the client when one was constructed,
and whether an adapter was constructed and the provider invoked. -/
structure NLOutcome where
  output : Option String
  cache : Option (LruState CacheKey LLMResponse)
  adapterConstructed : Bool
  providerCalled : Bool

/-- Folding a sequence of inserts into the cache (LruCache::put repeatedly). -/
def lruPuts {α β : Type} [BEq α] (s : LruState α β) (l : List (α × β)) : LruState α β :=
  l.foldl (fun acc kv => lruPut acc kv.1 kv.2) s

/-- Embedding of process_natural_language: the feature-flag short circuit,
the classifier gate, config and client construction, prompt building, the
cached generate call, and the safety check on the translated command. env
models the process environment, os the detected OS id, providerGen the
provider network call. -/
def process_natural_language (cfg : RustShellConfig) (input : String)
    (env : String → Option String) (os : String)
    (providerGen : LLMRequest → Except String LLMResponse) : NLOutcome :=
  if !cfg.features.enable_llm || cfg.features.offline_mode then
    ⟨none, none, false, false⟩
  else if !is_natural_language input then
    ⟨none, none, false, false⟩
  else
    let clean_input := stripQuotes input
    match toLLMConfig cfg env with
    | .error _ => ⟨none, none, false, false⟩
    | .ok llm_config =>
      match llmClientNew llm_config env with
      | .error _ => ⟨none, none, false, false⟩
      | .ok client =>
        let prompt_template := promptTemplateNew
        let prompt := build_prompt prompt_template clean_input os
        let request : LLMRequest :=
          { prompt := prompt
            max_tokens := cfg.llm.max_tokens
            temperature := cfg.llm.temperature
            context := some prompt_template.system_prompt }
        let g := llmGenerate client.config.model providerGen client.cache request
        match g.result with
        | .ok response =>
          let command := strTrim response.content
          if is_dangerous_command cfg command && cfg.safety.block_destructive then
            ⟨none, some g.cache, true, g.providerCalled⟩
          else
            ⟨some command, some g.cache, true, g.providerCalled⟩
        | .error _ => ⟨none, some g.cache, true, g.providerCalled⟩

/-- A default-like configuration with a literal API key and the
fallback-to-traditional flag disabled. -/
def cfgNoFallback : RustShellConfig :=
  { defaultConfig with
    llm := { defaultConfig.llm with api_key_env := some "sk-test" }
    features := { defaultConfig.features with fallback_to_traditional := false } }

end RustShell

namespace RustShell

/-- C9: build_prompt on the default template is total and produces, for every
user input and OS id, the fixed-order concatenation of system prompt, OS
label, quoted request, safety rules joined with a newline-dash separator, and
output-format instructions, ending with the directive Provide only the
command:; the result contains the literal request text; unrecognized OS ids
fall back to the label Unknown OS, and the label for linux is
Linux bash/sh shell. -/
theorem C9_build_prompt_spec :
    (∀ (user_input os : String),
      build_prompt promptTemplateNew user_input os =
        promptTemplateNew.system_prompt ++ "\n\nTarget OS: " ++
          osLabel promptTemplateNew os ++ "\nUser Request: \"" ++ user_input ++
          "\"\n\nSafety Rules:\n" ++
          String.intercalate "\n- " promptTemplateNew.safety_rules ++
          "\n\nOutput Format:\n" ++ promptTemplateNew.output_format ++
          "\n\nProvide only the command:" ∧
      SubstringOf user_input (build_prompt promptTemplateNew user_input os) ∧
      ∃ pre : List Char,
        (build_prompt promptTemplateNew user_input os).data =
          pre ++ ("Provide only the command:" : String).data) ∧
    (∀ os : String, os ∉ ["windows", "linux", "macos"] →
      osLabel promptTemplateNew os = "Unknown OS") ∧
    osLabel promptTemplateNew "linux" = "Linux bash/sh shell" := by
  have hsplit : ("\n\nProvide only the command:" : String).data =
      ("\n\n" : String).data ++ ("Provide only the command:" : String).data := by decide
  refine ⟨fun user_input os => ⟨rfl, ?_, ?_⟩, ?_, by decide⟩
  · refine ⟨(promptTemplateNew.system_prompt ++ "\n\nTarget OS: " ++
      osLabel promptTemplateNew os ++ "\nUser Request: \"").data,
      ("\"\n\nSafety Rules:\n" ++
        String.intercalate "\n- " promptTemplateNew.safety_rules ++
        "\n\nOutput Format:\n" ++ promptTemplateNew.output_format ++
        "\n\nProvide only the command:").data, ?_⟩
    simp [build_prompt, String.data_append]
  · refine ⟨(promptTemplateNew.system_prompt ++ "\n\nTarget OS: " ++
      osLabel promptTemplateNew os ++ "\nUser Request: \"" ++ user_input ++
      "\"\n\nSafety Rules:\n" ++
      String.intercalate "\n- " promptTemplateNew.safety_rules ++
      "\n\nOutput Format:\n" ++ promptTemplateNew.output_format ++ "\n\n").data, ?_⟩
    simp [build_prompt, String.data_append, hsplit]
  · intro os h
    simp only [List.mem_cons, List.not_mem_nil, not_or] at h
    obtain ⟨h1, h2, h3, -⟩ := h
    have e1 : (os == "windows") = false := beq_eq_false_iff_ne.mpr h1
    have e2 : (os == "linux") = false := beq_eq_false_iff_ne.mpr h2
    have e3 : (os == "macos") = false := beq_eq_false_iff_ne.mpr h3
    simp [osLabel, promptTemplateNew, List.lookup, e1, e2, e3]

/-- Closed instance of C9 discharging the unrecognized-OS hypothesis at a
concrete id. -/
theorem C9_build_prompt_spec_witness :
    osLabel promptTemplateNew "freebsd" = "Unknown OS" :=
  C9_build_prompt_spec.2.1 "freebsd" (by decide)

/-- A successfully constructed client always starts with a fresh empty
100-entry cache. -/
theorem llmClientNew_cache {config : LLMConfig} {env : String → Option String}
    {client : LLMClient} (h : llmClientNew config env = .ok client) :
    client.cache = emptyLru CacheKey LLMResponse 100 := by
  rw [llmClientNew] at h
  rcases hp : config.provider with _ | _ | e | e <;> rw [hp] at h
  · cases hk : config.api_key.orElse fun _ => env "OPENAI_API_KEY" <;> rw [hk] at h
    · exact absurd h (by simp)
    · injection h with h
      subst h
      rfl
  · cases hk : config.api_key.orElse fun _ => env "ANTHROPIC_API_KEY" <;> rw [hk] at h
    · exact absurd h (by simp)
    · injection h with h
      subst h
      rfl
  · exact absurd h (by simp)
  · exact absurd h (by simp)

/-- C1: whenever the LLM feature is disabled or offline mode is on,
process_natural_language returns the no-translation result immediately, with
no adapter constructed, no provider call and no client cache, for every
input, environment, OS and provider behavior. -/
theorem C1_offline_short_circuit
    (cfg : RustShellConfig) (input : String) (env : String → Option String)
    (os : String) (providerGen : LLMRequest → Except String LLMResponse)
    (h : cfg.features.enable_llm = false ∨ cfg.features.offline_mode = true) :
    process_natural_language cfg input env os providerGen =
      ⟨none, none, false, false⟩ := by
  rcases h with h | h <;> simp [process_natural_language, h]

/-- Closed instance of C1 at an offline configuration. -/
theorem C1_offline_short_circuit_witness :
    process_natural_language
      { defaultConfig with features := { defaultConfig.features with offline_mode := true } }
      "create a directory called test" (fun _ => none) "linux" (fun _ => .error "net")
      = ⟨none, none, false, false⟩ :=
  C1_offline_short_circuit _ _ _ _ _ (Or.inr rfl)

/-- C2 counterexample: the temperatures 0.006 and 0.01 agree after the
rounding the specification describes, round(temperature*100), and the two
requests agree on every other component, yet their fingerprints differ,
because the source truncates the scaled temperature instead of rounding. -/
theorem C2_fingerprint_round_counterexample :
    specRoundTemp (6 / 1000) = specRoundTemp (1 / 100) ∧
    calculate_cache_key "gpt-3.5-turbo" ⟨"p", 10, 6 / 1000, none⟩ ≠
      calculate_cache_key "gpt-3.5-turbo" ⟨"p", 10, 1 / 100, none⟩ := by
  have hf1 : (⌊(6 : ℚ) / 1000 * 100⌋ : ℤ) = 0 := by
    rw [Int.floor_eq_iff] <;> norm_num
  have hf2 : (⌊(1 : ℚ) / 100 * 100⌋ : ℤ) = 1 := by
    rw [Int.floor_eq_iff] <;> norm_num
  have hr1 : specRoundTemp (6 / 1000) = 1 := by
    rw [specRoundTemp, round_eq]
    rw [Int.floor_eq_iff] <;> norm_num
  have hr2 : specRoundTemp (1 / 100) = 1 := by
    rw [specRoundTemp, round_eq]
    rw [Int.floor_eq_iff] <;> norm_num
  refine ⟨hr1.trans hr2.symm, ?_⟩
  simp only [calculate_cache_key, f32ToU32, hf1, hf2, ne_eq, CacheKey.mk.injEq]
  norm_num

/-- C2 amended: the fingerprint is a pure deterministic function of exactly
the prompt, max_tokens, the temperature scaled by 100 and truncated by the
u32 cast, the optional context and the configured model string: requests
agreeing on those five components hash identically. -/
theorem C2_fingerprint_pure_function
    (model : String) (r1 r2 : LLMRequest)
    (hp : r1.prompt = r2.prompt) (hm : r1.max_tokens = r2.max_tokens)
    (ht : f32ToU32 (r1.temperature * 100) = f32ToU32 (r2.temperature * 100))
    (hc : r1.context = r2.context) :
    calculate_cache_key model r1 = calculate_cache_key model r2 := by
  simp [calculate_cache_key, hp, hm, ht, hc]

/-- Closed instance of C2 amended: temperatures 0.01 and 0.0101 truncate to
the same scaled value, so the fingerprints agree. -/
theorem C2_fingerprint_pure_function_witness :
    calculate_cache_key "gpt-3.5-turbo" ⟨"p", 10, 1 / 100, none⟩ =
      calculate_cache_key "gpt-3.5-turbo" ⟨"p", 10, 101 / 10000, none⟩ := by
  apply C2_fingerprint_pure_function
  · rfl
  · rfl
  · have hf2 : (⌊(1 : ℚ) / 100 * 100⌋ : ℤ) = 1 := by
      rw [Int.floor_eq_iff] <;> norm_num
    have hf3 : (⌊(101 : ℚ) / 10000 * 100⌋ : ℤ) = 1 := by
      rw [Int.floor_eq_iff] <;> norm_num
    simp [f32ToU32, hf2, hf3]
    norm_num
  · rfl

/-- C3 counterexample: with the fallback-to-traditional flag disabled and the
provider failing with an HTTP 401 error, the service still returns the
no-translation result rather than surfacing the error (its only channel back
to the caller is the optional command string). -/
theorem C3_fallback_counterexample :
    cfgNoFallback.features.fallback_to_traditional = false ∧
    (process_natural_language cfgNoFallback "create a directory called test"
        (fun _ => none) "linux"
        (fun _ => .error "OpenAI API error 401 Unauthorized: ")).providerCalled = true ∧
    (process_natural_language cfgNoFallback "create a directory called test"
        (fun _ => none) "linux"
        (fun _ => .error "OpenAI API error 401 Unauthorized: ")).output = none :=
  ⟨rfl, rfl, rfl⟩

/-- C3 amended: whenever the provider call fails, process_natural_language
returns the no-translation result, regardless of the fallback-to-traditional
flag (the error is never propagated to the caller). -/
theorem C3_provider_failure_returns_none
    (cfg : RustShellConfig) (input : String) (env : String → Option String)
    (os : String) (providerGen : LLMRequest → Except String LLMResponse)
    (hfail : ∀ r, ∃ e, providerGen r = .error e) :
    (process_natural_language cfg input env os providerGen).output = none := by
  rw [process_natural_language]
  split
  · rfl
  · split
    · rfl
    · rcases hc : toLLMConfig cfg env with e | llm_config
      · rfl
      · dsimp only
        rcases hn : llmClientNew llm_config env with e | client
        · rfl
        · dsimp only
          have hcache := llmClientNew_cache hn
          obtain ⟨prov, cache, config⟩ := client
          simp only at hcache
          subst hcache
          obtain ⟨e, he⟩ := hfail
            { prompt := build_prompt promptTemplateNew (stripQuotes input) os
              max_tokens := cfg.llm.max_tokens
              temperature := cfg.llm.temperature
              context := some promptTemplateNew.system_prompt }
          simp [llmGenerate, lruGet, emptyLru, he]

/-- Closed instance of C3 amended with an always-failing provider. -/
theorem C3_provider_failure_returns_none_witness :
    (process_natural_language cfgNoFallback "create a directory called test"
        (fun _ => none) "linux" (fun _ => .error "boom")).output = none :=
  C3_provider_failure_returns_none _ _ _ _ _ (fun _ => ⟨"boom", rfl⟩)

/-- C8 counterexample: an Anthropic response with an empty content list is
parsed as a success carrying empty content, not as an explicit failure. -/
theorem C8_anthropic_empty_content_counterexample :
    anthropicParseResponse ⟨[], none, none⟩ =
      .ok { content := "", finish_reason := "", usage := none } := rfl

/-- C8 amended: the OpenAI adapter fails explicitly on an empty choices list,
while the Anthropic adapter succeeds on an empty content list, returning
empty content. -/
theorem C8_empty_response_handling :
    (∀ r : OpenAIResponseBody, r.choices = [] →
      openAIParseResponse r = .error "No choices returned from OpenAI API") ∧
    (∀ r : AnthropicResponseBody, r.content = [] →
      anthropicParseResponse r =
        .ok { content := ""
              finish_reason := r.stop_reason.getD ""
              usage := r.usage.map fun u =>
                ⟨u.input_tokens, u.output_tokens, u.input_tokens + u.output_tokens⟩ }) := by
  constructor
  · intro r h
    rw [openAIParseResponse, h]
  · intro r h
    rw [anthropicParseResponse, h]
    rfl

/-- Closed instance of C8 amended at concrete empty response bodies. -/
theorem C8_empty_response_handling_witness :
    openAIParseResponse ⟨[], none⟩ = .error "No choices returned from OpenAI API" ∧
    anthropicParseResponse ⟨[], some ⟨3, 4⟩, some "end_turn"⟩ =
      .ok { content := "", finish_reason := "end_turn", usage := some ⟨3, 4, 7⟩ } :=
  ⟨C8_empty_response_handling.1 ⟨[], none⟩ rfl,
   C8_empty_response_handling.2 ⟨[], some ⟨3, 4⟩, some "end_turn"⟩ rfl⟩

/-- C4: is_dangerous_command is true exactly when the lower-cased command
contains some lower-cased configured dangerous pattern as a substring, for
every configuration; under the default patterns, the command
sudo rm -rf /home is dangerous while ls -la is not. -/
theorem C4_is_dangerous_iff_pattern_substring :
    (∀ (cfg : RustShellConfig) (c : String),
      is_dangerous_command cfg c = true ↔
        ∃ p ∈ cfg.safety.dangerous_patterns, SubstringOf (lowerStr p) (lowerStr c)) ∧
    is_dangerous_command defaultConfig "sudo rm -rf /home" = true ∧
    is_dangerous_command defaultConfig "ls -la" = false := by
  refine ⟨fun cfg c => ?_, by decide, by decide⟩
  simp only [is_dangerous_command, List.any_eq_true, strContains_iff]

/-- C5: requires_confirmation is false unconditionally when the
confirm-destructive UI switch is off, for every pattern list; when the switch
is on it is true exactly when the lower-cased command starts with some
lower-cased configured entry; the default policy requires confirmation for
rm file.txt. -/
theorem C5_requires_confirmation_spec :
    (∀ (cfg : RustShellConfig) (c : String),
      cfg.ui.confirm_destructive = false → requires_confirmation cfg c = false) ∧
    (∀ (cfg : RustShellConfig) (c : String),
      cfg.ui.confirm_destructive = true →
        (requires_confirmation cfg c = true ↔
          ∃ p ∈ cfg.safety.require_confirmation,
            ∃ r, (lowerStr c).data = (lowerStr p).data ++ r)) ∧
    requires_confirmation defaultConfig "rm file.txt" = true := by
  refine ⟨fun cfg c h => ?_, fun cfg c h => ?_, by decide⟩
  · simp [requires_confirmation, h]
  · simp only [requires_confirmation, h, Bool.not_true, Bool.false_eq_true,
      if_false, List.any_eq_true, strStarts_iff]

/-- Closed instance of C5 discharging each hypothesis at a concrete input. -/
theorem C5_requires_confirmation_spec_witness :
    requires_confirmation
      { defaultConfig with ui := { defaultConfig.ui with confirm_destructive := false } }
      "rm file.txt" = false ∧
    (requires_confirmation defaultConfig "rm file.txt" = true ↔
      ∃ p ∈ defaultConfig.safety.require_confirmation,
        ∃ r, (lowerStr "rm file.txt").data = (lowerStr p).data ++ r) :=
  ⟨C5_requires_confirmation_spec.1
      { defaultConfig with ui := { defaultConfig.ui with confirm_destructive := false } }
      "rm file.txt" rfl,
   C5_requires_confirmation_spec.2.1 defaultConfig "rm file.txt" rfl⟩

/-- C6: is_natural_language, a total Lean function, is true exactly when the
lower-cased input contains a fixed keyword, or the input has more than 3
whitespace-separated tokens and its lower-cased form contains a padded
function word; the empty input yields false. -/
theorem C6_is_natural_language_spec :
    (∀ input : String,
      is_natural_language input = true ↔
        ((∃ k ∈ natural_language_indicators, SubstringOf k (lowerStr input)) ∨
         (countTokens input > 3 ∧
           ∃ w ∈ sentencePatternWords, SubstringOf w (lowerStr input)))) ∧
    is_natural_language "" = false := by
  refine ⟨fun input => ?_, by decide⟩
  rw [is_natural_language]
  split
  · rename_i h
    simp only [List.any_eq_true, strContains_iff] at h
    simpa using Or.inl h
  · rename_i h
    simp only [List.any_eq_true, strContains_iff] at h
    split
    · rename_i hlen
      rw [sentence_pattern_iff]
      constructor
      · exact fun hw => Or.inr ⟨hlen, hw⟩
      · rintro (hk | ⟨_, hw⟩)
        · exact absurd hk h
        · exact hw
    · rename_i hlen
      simp only [Bool.false_eq_true, false_iff]
      rintro (hk | ⟨hl, _⟩)
      · exact h hk
      · exact hlen hl

end RustShell

namespace RustShell

/-- Appending each element of a list before taking n absorbs an inner take n. -/
theorem take_append_take {γ : Type} (A B : List γ) (n : Nat) :
    (A ++ B.take n).take n = (A ++ B).take n := by
  rw [List.take_append_eq_append_take, List.take_append_eq_append_take, List.take_take]
  congr 1
  exact congrArg (fun m => List.take m B) (min_eq_left (Nat.sub_le _ _))

/-- Inserting a key not present in the cache conses the new entry and
truncates to capacity. -/
theorem lruPut_fresh {α β : Type} [BEq α] [LawfulBEq α] (s : LruState α β) (k : α) (v : β)
    (h : k ∉ s.entries.map Prod.fst) :
    (lruPut s k v).entries = ((k, v) :: s.entries).take s.capacity := by
  rw [lruPut]
  have hfil : s.entries.filter (fun x => !(x.1 == k)) = s.entries := by
    rw [List.filter_eq_self]
    intro x hx
    have : x.1 ≠ k := fun he => h (he ▸ List.mem_map_of_mem Prod.fst hx)
    simp [this]
  rw [hfil]

/-- Inserting a list of fresh, pairwise-distinct keys leaves the cache
holding the reversed insertion order truncated to capacity. -/
theorem lruPuts_entries {α β : Type} [BEq α] [LawfulBEq α] :
    ∀ (l : List (α × β)) (s : LruState α β),
      (l.map Prod.fst).Nodup →
      (∀ x ∈ l.map Prod.fst, x ∉ s.entries.map Prod.fst) →
      s.entries.length ≤ s.capacity →
      (lruPuts s l).entries = (l.reverse ++ s.entries).take s.capacity := by
  intro l
  induction l with
  | nil =>
    intro s _ _ hlen
    simp only [lruPuts, List.foldl_nil, List.reverse_nil, List.nil_append]
    exact (List.take_of_length_le hlen).symm
  | cons kv t ih =>
    intro s hnd hdisj hlen
    obtain ⟨k, v⟩ := kv
    have hk : k ∉ s.entries.map Prod.fst := hdisj k (by simp)
    have hstep : (lruPut s k v).entries = ((k, v) :: s.entries).take s.capacity :=
      lruPut_fresh s k v hk
    have hcapeq : (lruPut s k v).capacity = s.capacity := rfl
    have hknott : k ∉ t.map Prod.fst := by
      have h0 := hnd
      simp only [List.map_cons, List.nodup_cons] at h0
      exact h0.1
    have hnd' : (t.map Prod.fst).Nodup := by
      simp only [List.map_cons, List.nodup_cons] at hnd
      exact hnd.2
    have hdisj' : ∀ x ∈ t.map Prod.fst, x ∉ (lruPut s k v).entries.map Prod.fst := by
      intro x hx hmem
      rw [hstep] at hmem
      have hsub : x ∈ ((k, v) :: s.entries).map Prod.fst := by
        rcases List.mem_map.mp hmem with ⟨e, he, rfl⟩
        exact List.mem_map_of_mem Prod.fst (List.take_subset _ _ he)
      rcases List.mem_cons.mp hsub with h1 | h1
      · exact hknott (by rw [h1] at hx; simpa using hx)
      · exact hdisj x (List.mem_cons_of_mem _ hx) h1
    have hlen' : (lruPut s k v).entries.length ≤ (lruPut s k v).capacity := by
      rw [hstep, hcapeq]
      exact List.length_take_le _ _
    have hmain := ih (lruPut s k v) hnd' hdisj' hlen'
    have hfold : lruPuts s ((k, v) :: t) = lruPuts (lruPut s k v) t := rfl
    rw [hfold, hmain, hcapeq, hstep]
    rw [take_append_take]
    simp [List.append_assoc]

/-- Inserting a key and immediately looking it up hits, for any nonzero
capacity. -/
theorem lruPut_get_roundtrip {α β : Type} [BEq α] [LawfulBEq α]
    (s : LruState α β) (k : α) (v : β) (hcap : 1 ≤ s.capacity) :
    (lruGet (lruPut s k v) k).1 = some v := by
  rcases s with ⟨cap, entries⟩
  cases cap with
  | zero => simp at hcap
  | succ n =>
    simp [lruGet, lruPut, List.take_succ_cons, List.find?_cons]

/-- A cache hit short-circuits generate: the cached response is returned and
the provider is not called. -/
theorem llmGenerate_hit (model : String)
    (providerGen : LLMRequest → Except String LLMResponse)
    (cache : LruState CacheKey LLMResponse) (request : LLMRequest) (v : LLMResponse)
    (h : (lruGet cache (calculate_cache_key model request)).1 = some v) :
    llmGenerate model providerGen cache request =
      ⟨.ok v, (lruGet cache (calculate_cache_key model request)).2, false⟩ := by
  rw [llmGenerate]
  rcases hg : lruGet cache (calculate_cache_key model request) with ⟨o, c⟩
  rw [hg] at h
  simp only at h
  subst h
  rfl

/-- A hit promotes the entry to the most-recently-used position. -/
theorem lruGet_hit_promote {α β : Type} [BEq α] [LawfulBEq α]
    (s : LruState α β) (k : α) (v : β) (hget : (lruGet s k).1 = some v) :
    ∃ rest, (lruGet s k).2.entries = (k, v) :: rest := by
  rw [lruGet] at hget ⊢
  rcases hf : s.entries.find? (fun e => e.1 == k) with _ | e
  · rw [hf] at hget
    simp at hget
  · rw [hf] at hget ⊢
    simp only at hget ⊢
    have hk : e.1 = k := by
      have h0 := List.find?_some hf
      simpa using h0
    have he : e = (k, v) := by
      rcases e with ⟨a, b⟩
      simp only at hk hget
      simp [hk, Option.some.inj hget]
    exact ⟨_, by rw [he]⟩

/-- Inserting a different key keeps the most-recently-used entry, for
capacity at least two. -/
theorem lruPut_protects {α β : Type} [BEq α] [LawfulBEq α]
    (s : LruState α β) (k k2 : α) (v : β) (v2 : β)
    (hcap : 2 ≤ s.capacity) (hhead : ∃ rest, s.entries = (k, v) :: rest)
    (hne : k2 ≠ k) :
    k ∈ (lruPut s k2 v2).entries.map Prod.fst := by
  obtain ⟨rest, hrest⟩ := hhead
  rw [lruPut, hrest]
  have hkk2 : ((k, v).1 == k2) = false := by
    simp only
    exact beq_eq_false_iff_ne.mpr (fun h => hne h.symm)
  rw [List.filter_cons, hkk2]
  simp only [Bool.not_false, if_true]
  obtain ⟨m, hm⟩ : ∃ m, s.capacity = m + 2 :=
    ⟨s.capacity - 2, by omega⟩
  rw [hm]
  simp [List.take_succ_cons]

/-- Looking up a key leaves the capacity unchanged. -/
theorem lruGet_capacity {α β : Type} [BEq α] (s : LruState α β) (k : α) :
    (lruGet s k).2.capacity = s.capacity := by
  cases hf : s.entries.find? (fun e => e.1 == k) <;> simp [lruGet, hf]

/-- A miss leaves the cache unchanged. -/
theorem lruGet_miss {α β : Type} [BEq α] (s : LruState α β) (k : α)
    (h : (lruGet s k).1 = none) : (lruGet s k).2 = s := by
  rw [lruGet] at h ⊢
  cases hf : s.entries.find? (fun e => e.1 == k)
  · rfl
  · rw [hf] at h
    exact Option.noConfusion h

/-- On a miss with a successful provider call, generate dispatches to the
provider and inserts the response into the cache. -/
theorem llmGenerate_miss_inserts (model : String)
    (providerGen : LLMRequest → Except String LLMResponse)
    (cache : LruState CacheKey LLMResponse) (request : LLMRequest)
    (response : LLMResponse)
    (hmiss : (lruGet cache (calculate_cache_key model request)).1 = none)
    (hok : providerGen request = .ok response) :
    llmGenerate model providerGen cache request =
      ⟨.ok response, lruPut cache (calculate_cache_key model request) response, true⟩ := by
  have h2 := lruGet_miss _ _ hmiss
  rw [llmGenerate]
  rcases hg : lruGet cache (calculate_cache_key model request) with ⟨o, c⟩
  rw [hg] at hmiss h2
  simp only at hmiss h2
  subst hmiss
  subst h2
  simp [hok]

end RustShell

namespace RustShell

/-- C7: for the LRU response cache, (i) inserting a response under the
fingerprint of a request and immediately looking that fingerprint up returns
the same response, and a generate on that request is served from the cache
with no provider call; (ii) inserting capacity + 1 distinct fingerprints
into an empty cache evicts exactly the least-recently-used (first) one,
keeping all others; (iii) a lookup hit promotes the entry so that the next
insertion of a fresh key cannot evict it. -/
theorem C7_lru_cache_spec :
    (∀ (model : String) (providerGen : LLMRequest → Except String LLMResponse)
        (cache : LruState CacheKey LLMResponse) (request : LLMRequest) (v : LLMResponse),
      1 ≤ cache.capacity →
      (lruGet (lruPut cache (calculate_cache_key model request) v)
          (calculate_cache_key model request)).1 = some v ∧
      llmGenerate model providerGen
          (lruPut cache (calculate_cache_key model request) v) request =
        ⟨.ok v,
         (lruGet (lruPut cache (calculate_cache_key model request) v)
            (calculate_cache_key model request)).2, false⟩) ∧
    (∀ (cap : Nat) (kv : CacheKey × LLMResponse) (rest : List (CacheKey × LLMResponse)),
      ((kv :: rest).map Prod.fst).Nodup → rest.length = cap →
      (lruPuts (emptyLru CacheKey LLMResponse cap) (kv :: rest)).entries = rest.reverse ∧
      kv.1 ∉ ((lruPuts (emptyLru CacheKey LLMResponse cap) (kv :: rest)).entries.map
        Prod.fst)) ∧
    (∀ (s : LruState CacheKey LLMResponse) (k k2 : CacheKey) (v v2 : LLMResponse),
      2 ≤ s.capacity → (lruGet s k).1 = some v → k2 ≠ k →
      k ∈ (lruPut (lruGet s k).2 k2 v2).entries.map Prod.fst) := by
  refine ⟨?_, ?_, ?_⟩
  · intro model providerGen cache request v hcap
    have hhit := lruPut_get_roundtrip cache (calculate_cache_key model request) v hcap
    exact ⟨hhit, llmGenerate_hit model providerGen _ request v hhit⟩
  · intro cap kv rest hnd hlen
    have hmain := lruPuts_entries (kv :: rest) (emptyLru CacheKey LLMResponse cap) hnd
      (by intro x _ hmem; simp [emptyLru] at hmem) (by simp [emptyLru])
    have hent : (lruPuts (emptyLru CacheKey LLMResponse cap) (kv :: rest)).entries =
        rest.reverse := by
      rw [hmain]
      simp only [emptyLru, List.append_nil, List.reverse_cons]
      rw [List.take_append_eq_append_take]
      have h1 : rest.reverse.length = cap := by simpa using hlen
      rw [List.take_of_length_le (le_of_eq h1), h1]
      simp
    refine ⟨hent, ?_⟩
    rw [hent]
    intro hmem
    have hmem' : kv.1 ∈ rest.map Prod.fst := by
      rcases List.mem_map.mp hmem with ⟨e, he, heq⟩
      rw [← heq]
      exact List.mem_map_of_mem Prod.fst (List.mem_reverse.mp he)
    simp only [List.map_cons, List.nodup_cons] at hnd
    exact hnd.1 hmem'
  · intro s k k2 v v2 hcap hget hne
    obtain ⟨rest, hrest⟩ := lruGet_hit_promote s k v hget
    exact lruPut_protects (lruGet s k).2 k k2 v v2
      (by rw [lruGet_capacity]; exact hcap) ⟨rest, hrest⟩ hne

/-- Closed instance of C7 discharging its hypotheses at concrete caches:
a singleton-capacity round trip, eviction of the first of three distinct
keys at capacity two, and protection of a promoted entry. -/
theorem C7_lru_cache_spec_witness :
    ((lruGet (lruPut (emptyLru CacheKey LLMResponse 1)
          (calculate_cache_key "m" ⟨"p", 1, 0, none⟩) ⟨"cmd", "stop", none⟩)
        (calculate_cache_key "m" ⟨"p", 1, 0, none⟩)).1 = some ⟨"cmd", "stop", none⟩ ∧
      llmGenerate "m" (fun _ => .error "down")
          (lruPut (emptyLru CacheKey LLMResponse 1)
            (calculate_cache_key "m" ⟨"p", 1, 0, none⟩) ⟨"cmd", "stop", none⟩)
          ⟨"p", 1, 0, none⟩ =
        ⟨.ok ⟨"cmd", "stop", none⟩,
         (lruGet (lruPut (emptyLru CacheKey LLMResponse 1)
              (calculate_cache_key "m" ⟨"p", 1, 0, none⟩) ⟨"cmd", "stop", none⟩)
            (calculate_cache_key "m" ⟨"p", 1, 0, none⟩)).2, false⟩) ∧
    ((lruPuts (emptyLru CacheKey LLMResponse 2)
        ((⟨"a", 1, 0, none, "m"⟩, ⟨"ca", "stop", none⟩) ::
          [(⟨"b", 1, 0, none, "m"⟩, ⟨"cb", "stop", none⟩),
           (⟨"c", 1, 0, none, "m"⟩, ⟨"cc", "stop", none⟩)])).entries =
      [(⟨"b", 1, 0, none, "m"⟩, ⟨"cb", "stop", none⟩),
       (⟨"c", 1, 0, none, "m"⟩, ⟨"cc", "stop", none⟩)].reverse ∧
      (⟨"a", 1, 0, none, "m"⟩ : CacheKey) ∉
        ((lruPuts (emptyLru CacheKey LLMResponse 2)
          ((⟨"a", 1, 0, none, "m"⟩, ⟨"ca", "stop", none⟩) ::
            [(⟨"b", 1, 0, none, "m"⟩, ⟨"cb", "stop", none⟩),
             (⟨"c", 1, 0, none, "m"⟩, ⟨"cc", "stop", none⟩)])).entries.map Prod.fst)) ∧
    (⟨"b", 1, 0, none, "m"⟩ : CacheKey) ∈
      (lruPut (lruGet (⟨2, [(⟨"a", 1, 0, none, "m"⟩, ⟨"ca", "stop", none⟩),
            (⟨"b", 1, 0, none, "m"⟩, ⟨"cb", "stop", none⟩)]⟩ : LruState CacheKey LLMResponse)
          ⟨"b", 1, 0, none, "m"⟩).2
        ⟨"c", 1, 0, none, "m"⟩ ⟨"cc", "stop", none⟩).entries.map Prod.fst :=
  ⟨C7_lru_cache_spec.1 "m" (fun _ => .error "down") (emptyLru CacheKey LLMResponse 1)
      ⟨"p", 1, 0, none⟩ ⟨"cmd", "stop", none⟩ (by decide),
   C7_lru_cache_spec.2.1 2 (⟨"a", 1, 0, none, "m"⟩, ⟨"ca", "stop", none⟩)
      [(⟨"b", 1, 0, none, "m"⟩, ⟨"cb", "stop", none⟩),
       (⟨"c", 1, 0, none, "m"⟩, ⟨"cc", "stop", none⟩)] (by decide) rfl,
   C7_lru_cache_spec.2.2 ⟨2, [(⟨"a", 1, 0, none, "m"⟩, ⟨"ca", "stop", none⟩),
        (⟨"b", 1, 0, none, "m"⟩, ⟨"cb", "stop", none⟩)]⟩
      ⟨"b", 1, 0, none, "m"⟩ ⟨"c", 1, 0, none, "m"⟩ ⟨"cb", "stop", none⟩
      ⟨"cc", "stop", none⟩ (by decide) (by decide) (by decide)⟩

/-- C10: the enable_cache flag has no effect: flipping it changes neither
the derived client configuration nor any observable outcome of
process_natural_language (translation, cache state, adapter construction or
provider calls); and generate always looks the cache up before dispatch and
always inserts a successful provider response, there being no flag to
prevent it. -/
theorem C10_enable_cache_no_effect :
    (∀ (cfg : RustShellConfig) (b : Bool) (input : String)
        (env : String → Option String) (os : String)
        (providerGen : LLMRequest → Except String LLMResponse),
      toLLMConfig { cfg with llm := { cfg.llm with enable_cache := b } } env =
        toLLMConfig cfg env ∧
      process_natural_language { cfg with llm := { cfg.llm with enable_cache := b } }
          input env os providerGen =
        process_natural_language cfg input env os providerGen) ∧
    (∀ (model : String) (providerGen : LLMRequest → Except String LLMResponse)
        (cache : LruState CacheKey LLMResponse) (request : LLMRequest)
        (response : LLMResponse),
      (lruGet cache (calculate_cache_key model request)).1 = none →
      providerGen request = .ok response →
      llmGenerate model providerGen cache request =
        ⟨.ok response, lruPut cache (calculate_cache_key model request) response,
         true⟩) := by
  refine ⟨fun cfg b input env os providerGen => ⟨rfl, rfl⟩, ?_⟩
  intro model providerGen cache request response hmiss hok
  exact llmGenerate_miss_inserts model providerGen cache request response hmiss hok

/-- Closed instance of C10 discharging the miss and success hypotheses at a
concrete empty cache. -/
theorem C10_enable_cache_no_effect_witness :
    llmGenerate "m" (fun _ => .ok ⟨"cmd", "stop", none⟩)
        (emptyLru CacheKey LLMResponse 100) ⟨"p", 1, 0, none⟩ =
      ⟨.ok ⟨"cmd", "stop", none⟩,
       lruPut (emptyLru CacheKey LLMResponse 100)
         (calculate_cache_key "m" ⟨"p", 1, 0, none⟩) ⟨"cmd", "stop", none⟩, true⟩ :=
  C10_enable_cache_no_effect.2 "m" (fun _ => .ok ⟨"cmd", "stop", none⟩)
    (emptyLru CacheKey LLMResponse 100) ⟨"p", 1, 0, none⟩ ⟨"cmd", "stop", none⟩ rfl rfl

end RustShell
